import Mathlib

/-!
Verification of the state aggregator (`erigon-lib/state/aggregator.go`).

The Go code is shallowly embedded: machine integers become `Nat` with explicit
wrap-around (`% 2^64`) where Go's uint64 overflow matters, filesystem and DB
probes become explicit function-valued parameters, and the synchronous
decision logic of each operation becomes a pure Lean function translated
line-by-line from the source.
-/

namespace Erigon

/-- Modulus of Go uint64 arithmetic. -/
def U64MOD : ℕ := 2 ^ 64

/-- Largest Go uint64 value (`math.MaxUint64`). -/
def MaxUint64 : ℕ := 2 ^ 64 - 1

/-- Go uint64 subtraction `a - b` with wrap-around, for `a b < U64MOD`. -/
def wsub (a b : ℕ) : ℕ := if b ≤ a then a - b else a + U64MOD - b

/-- Modelled from the spec: the domain enum of the `kv` package (not under
`src/`). `Accounts`, `Storage`, `Code`, `Commitment` are the four state
domains used throughout `aggregator.go`; `Receipt` stands for the remaining
(non-state) domains of the `at.d` array. -/
inductive Domain where
  | Accounts
  | Storage
  | Code
  | Commitment
  | Receipt
  deriving DecidableEq, Repr

/-- All domains of the aggregator's `a.d` array, in enum order. -/
def allDomains : List Domain := [.Accounts, .Storage, .Code, .Commitment, .Receipt]

/-- Modelled from the spec: `kv.StateDomains` (not under `src/`), the four
state domains. -/
def StateDomains : List Domain := [.Accounts, .Storage, .Code, .Commitment]

/-! ## Step arithmetic (source lines 1170-1183, 230) -/

/-- `firstTxNumOfStep(step, size)` returns `step * size` (source line 1170). -/
def firstTxNumOfStep (step size : ℕ) : ℕ := step * size

/-- `lastTxNumOfStep(step, size)` returns `firstTxNumOfStep(step+1, size) - 1`
(source line 1174). Nat truncated subtraction agrees with Go here whenever
`size > 0`. -/
def lastTxNumOfStep (step size : ℕ) : ℕ := firstTxNumOfStep (step + 1) size - 1

/-- `Aggregator.FirstTxNumOfStep(step)` delegates to `firstTxNumOfStep` with
`a.StepSize()` = `a.aggregationStep` (source lines 230, 1181-1183). -/
def FirstTxNumOfStep (aggregationStep step : ℕ) : ℕ :=
  firstTxNumOfStep step aggregationStep

/-- The half-open txNum range covered by a file identified by
`(fromStep, toStep)`: `buildFiles` collates `[FirstTxNumOfStep(step),
FirstTxNumOfStep(step+1))` (source lines 505-506), so a `(fromStep, toStep)`
file covers `[fromStep*size, toStep*size)`. -/
def fileTxRange (fromStep toStep size : ℕ) : ℕ × ℕ :=
  (firstTxNumOfStep fromStep size, firstTxNumOfStep toStep size)

/-! ## Close idempotence (source lines 278-288, 1670-1685) -/

/-- The `Aggregator` fields touched by `Close` (source lines 278-288):
`ctxCancelValid` models `a.ctxCancel != nil`; the remaining flags record the
side effects of a completed close. -/
structure AggregatorCloseState where
  ctxCancelValid : Bool
  ctxCanceled : Bool
  dirtyFilesClosed : Bool
  visibleFilesRecalced : Bool
  deriving DecidableEq, Repr

/-- `Aggregator.Close` (source lines 278-288): early-returns when
`a.ctxCancel == nil`, otherwise cancels the context, nils `ctxCancel`, waits
the waitgroup, closes dirty files and recalculates visible files. -/
def aggregatorClose (s : AggregatorCloseState) : AggregatorCloseState :=
  if s.ctxCancelValid = false then s
  else
    { ctxCancelValid := false
      ctxCanceled := true
      dirtyFilesClosed := true
      visibleFilesRecalced := true }

/-- The `AggregatorRoTx` fields touched by `Close` (source lines 1670-1685):
`aValid` models `at.a != nil`; the flags record the side effects. A nil
receiver is modelled by `Option`. -/
structure AggregatorRoTxCloseState where
  aValid : Bool
  leakIdDeleted : Bool
  domainsClosed : Bool
  iisClosed : Bool
  deriving DecidableEq, Repr

/-- `AggregatorRoTx.Close` (source lines 1670-1685): early-returns when the
receiver is nil or `at.a == nil`; otherwise deregisters from the leak
detector, nils `at.a` and closes every domain and inverted-index handle. -/
def aggregatorRoTxClose : Option AggregatorRoTxCloseState → Option AggregatorRoTxCloseState
  | none => none
  | some s =>
    if s.aValid = false then some s
    else some
      { aValid := false
        leakIdDeleted := true
        domainsClosed := true
        iisClosed := true }

/-! ## Datadir integrity check (source lines 101-127) -/

/-- The snapshot directory, abstracted to the only probe the integrity check
performs: whether `v1-commitment.<fromStep>-<toStep>.kv` exists on disk. -/
structure SnapDirs where
  commitmentKvExists : ℕ → ℕ → Bool

/-- `commitmentFileMustExist(dirs, fromStep, toStep)` (source lines 101-108):
returns whether the commitment `.kv` file for `(fromStep, toStep)` exists. -/
def commitmentFileMustExist (dirs : SnapDirs) (fromStep toStep : ℕ) : Bool :=
  dirs.commitmentKvExists fromStep toStep

/-- `domainIntegrityCheck(name, dirs, fromStep, toStep)` (source lines
110-127): for the Accounts, Storage and Code domains, a file whose span
`toStep - fromStep` (Go uint64 subtraction) exceeds 1 is accepted outright
("only recently built files" are checked); otherwise the matching Commitment
file must exist. Files of all other domains are accepted. -/
def domainIntegrityCheck (name : Domain) (dirs : SnapDirs) (fromStep toStep : ℕ) : Bool :=
  match name with
  | .Accounts | .Storage | .Code =>
    if 1 < wsub toStep fromStep then true
    else commitmentFileMustExist dirs fromStep toStep
  | _ => true

/-! ## BuildFilesInBackground: synchronous prefix (source lines 1465-1483) -/

/-- The `Aggregator` fields read by the synchronous prefix of
`BuildFilesInBackground` (source lines 1465-1483). All numeric fields are Go
uint64 values, i.e. `< U64MOD`. -/
structure BuildTriggerState where
  produce : Bool
  visibleFilesMinimaxTxNum : ℕ
  buildingFiles : Bool
  aggregationStep : ℕ
  deriving DecidableEq, Repr

/-- Result of the synchronous prefix of `BuildFilesInBackground`:
whether the returned channel was closed immediately, whether the background
build goroutine was spawned, and the `buildingFiles` flag afterwards. -/
structure BuildTriggerResult where
  finClosedImmediately : Bool
  startedBuild : Bool
  buildingFiles : Bool
  deriving DecidableEq, Repr

/-- The synchronous prefix of `Aggregator.BuildFilesInBackground(txNum)`
(source lines 1465-1483): close-and-return when `!a.produce`, when
`(txNum+1) <= visibleFilesMinimaxTxNum + aggregationStep` (uint64
arithmetic), or when the CAS of `buildingFiles` from false to true is lost;
otherwise spawn the build goroutine. -/
def BuildFilesInBackground (a : BuildTriggerState) (txNum : ℕ) : BuildTriggerResult :=
  if a.produce = false then
    { finClosedImmediately := true, startedBuild := false, buildingFiles := a.buildingFiles }
  else if (txNum + 1) % U64MOD ≤ (a.visibleFilesMinimaxTxNum + a.aggregationStep) % U64MOD then
    { finClosedImmediately := true, startedBuild := false, buildingFiles := a.buildingFiles }
  else if a.buildingFiles = true then
    -- CompareAndSwap(false, true) lost: flag was already true
    { finClosedImmediately := true, startedBuild := false, buildingFiles := true }
  else
    { finClosedImmediately := false, startedBuild := true, buildingFiles := true }

/-! ## findMergeRange (source lines 1235-1329) -/

/-- Modelled from the spec: `MergeRange` of the merge planner (not under
`src/`): a proposed merge window over txNums `[fromTx, to)` together with its
`needMerge` flag. The Go zero value `MergeRange{}` is `⟨false, 0, 0⟩`. -/
structure MergeRange where
  needMerge : Bool
  fromTx : ℕ
  toTx : ℕ
  deriving DecidableEq, Repr

/-- Modelled from the spec: `MergeRange.Equal` (not under `src/`) holds when
the two windows have the same bounds. -/
def MergeRange.Equal (mr other : MergeRange) : Bool :=
  mr.fromTx == other.fromTx && mr.toTx == other.toTx

/-- The Go zero value `MergeRange{}`. -/
def MergeRange.empty : MergeRange := ⟨false, 0, 0⟩

/-- The parts of an `AggregatorRoTx` read by `findMergeRange` (source lines
1275-1329). The per-domain planners live outside `src/` and are abstracted as
function fields: `latestMergedRange d` models
`at.d[d].files.LatestMergedRange()`; `domainFindMergeRange d maxEnd maxSpan`
models the values-range proposed by `at.d[d].findMergeRange(maxEnd,
maxSpan)`; `lookupDirtyFileByItsRange d f t` models
`at.d[d].lookupDirtyFileByItsRange(f, t) != nil`; `iiFindMergeRange` models
the `at.iis` planners. -/
structure AggMergeView where
  commitmentValuesTransform : Bool
  latestMergedRange : Domain → MergeRange
  domainFindMergeRange : Domain → ℕ → ℕ → MergeRange
  lookupDirtyFileByItsRange : Domain → ℕ → ℕ → Bool
  iiFindMergeRange : List (ℕ → ℕ → MergeRange)

/-- `RangesV3` (source lines 1235-1242), restricted to the components the
planner manipulates here: the values-`MergeRange` of each domain's
`DomainRanges` and the inverted-index ranges. -/
structure RangesV3 where
  domain : Domain → MergeRange
  invertedIndex : List MergeRange

/-- The effective `maxEndTxNum` computed at the top of `findMergeRange`
(source lines 1277-1288): when `commitmentValuesTransform` is set and the
latest merged ranges of Accounts, Storage and Commitment disagree, it is
lowered to `min(maxEndTxNum, max(accTo, stoTo, comTo))` (and a warning is
logged). -/
def findMergeRangeMaxEnd (v : AggMergeView) (maxEndTxNum : ℕ) : ℕ :=
  let lmrAcc := v.latestMergedRange .Accounts
  let lmrSto := v.latestMergedRange .Storage
  let lmrCom := v.latestMergedRange .Commitment
  if v.commitmentValuesTransform && (!(lmrCom.Equal lmrAcc) || !(lmrCom.Equal lmrSto)) then
    min maxEndTxNum (max lmrAcc.toTx (max lmrSto.toTx lmrCom.toTx))
  else maxEndTxNum

/-- The remainder of `findMergeRange` after the bound is fixed (source lines
1289-1328): ask every domain planner for a values-window ending at or before
the bound; then, when `commitmentValuesTransform` is set and Commitment wants
a merge, hold a disagreeing domain whose file for Commitment's window already
exists (zero its proposal), or cancel all values-merges when such a file is
missing; finally ask the inverted-index planners. -/
def findMergeRangeFrom (v : AggMergeView) (maxEndTxNum maxSpan : ℕ) : RangesV3 :=
  let rdom : Domain → MergeRange := fun d => v.domainFindMergeRange d maxEndTxNum maxSpan
  let cr := rdom .Commitment
  let rdom2 : Domain → MergeRange :=
    if v.commitmentValuesTransform && cr.needMerge then
      -- a domain whose values-range disagrees with Commitment's and is not
      -- merging past it (line 1303's `!dr.values.needMerge || cr.values.toTx <
      -- dr.values.from`)
      let laggard : Domain → Bool := fun k =>
        !(k == .Commitment) && !(cr.Equal (rdom k))
          && (!(rdom k).needMerge || decide (cr.toTx < (rdom k).fromTx))
      let restorePrevRange :=
        allDomains.any fun k => laggard k && !(v.lookupDirtyFileByItsRange k cr.fromTx cr.toTx)
      if restorePrevRange then fun _ => MergeRange.empty
      else fun k =>
        if laggard k && v.lookupDirtyFileByItsRange k cr.fromTx cr.toTx then MergeRange.empty
        else rdom k
    else rdom
  { domain := rdom2
    invertedIndex := v.iiFindMergeRange.map fun f => f maxEndTxNum maxSpan }

/-- `AggregatorRoTx.findMergeRange(maxEndTxNum, maxSpan)` (source lines
1275-1329): every proposal is made against the effective bound computed by
`findMergeRangeMaxEnd`. -/
def findMergeRange (v : AggMergeView) (maxEndTxNum maxSpan : ℕ) : RangesV3 :=
  findMergeRangeFrom v (findMergeRangeMaxEnd v maxEndTxNum) maxSpan

/-! ## Background build bound (source lines 1500-1528, 1688-1707) -/

/-- Modelled from the spec: the per-domain DB probe behind `lastIdInDB` and
`lastIdInDBNoHistory` (its implementation is not under `src/`): the greatest
fully-written step present in the DB for the domain. -/
structure AggDbView where
  maxStepInDB : Domain → ℕ

/-- `lastIdInDB(db, domain)` (source lines 1688-1696): opens a DB view and
reads `domain.maxStepInDB(tx)`. -/
def lastIdInDB (db : AggDbView) (d : Domain) : ℕ := db.maxStepInDB d

/-- `lastIdInDBNoHistory(db, domain)` (source lines 1698-1707): opens a DB
view and reads `domain.maxStepInDBNoHistory(tx)`. Modelled from the spec: for
a domain this is the same quantity — the greatest fully-written step present
in the DB — read from the values tables (used for Commitment, which keeps no
history). -/
def lastIdInDBNoHistory (db : AggDbView) (d : Domain) : ℕ := db.maxStepInDB d

/-- `lastInDB` computed inside the goroutine of `BuildFilesInBackground`
(source lines 1500-1504). -/
def buildLoopLastInDB (db : AggDbView) : ℕ :=
  max (lastIdInDB db .Accounts)
    (max (lastIdInDB db .Code)
      (max (lastIdInDB db .Storage) (lastIdInDBNoHistory db .Commitment)))

/-- The steps built by the loop `for ; step < lastInDB; step++` (source lines
1519-1528) when no build error interrupts it; an erroring run builds a prefix
of this list. -/
def builtSteps (startStep lastInDB : ℕ) : List ℕ :=
  List.range' startStep (lastInDB - startStep)

/-! ## TxNumsInFiles / StepsInFiles (source lines 776-795) -/

/-- The parts of an `AggregatorRoTx` read by `TxNumsInFiles` and
`StepsInFiles`: `endTxNum d` models `at.d[d].files.EndTxNum()` and `stepSize`
models `at.StepSize()`. -/
structure AggFilesView where
  endTxNum : Domain → ℕ
  stepSize : ℕ

/-- `AggregatorRoTx.TxNumsInFiles(entitySet...)` (source lines 784-795):
panics (modelled as `none`) on an empty entity set; otherwise scans the set,
keeping the running minimum of the listed domains' visible-files end txNums
(the loop's `if i == 0 || domainEnd < minTxNum` update is `min`). -/
def TxNumsInFiles (v : AggFilesView) (entitySet : List Domain) : Option ℕ :=
  match entitySet with
  | [] => none
  | e :: es => some (es.foldl (fun minTxNum d => min minTxNum (v.endTxNum d)) (v.endTxNum e))

/-- `AggregatorRoTx.StepsInFiles(entitySet...)` (source lines 776-782):
decrements a positive `TxNumsInFiles` result, then divides by the step size. -/
def StepsInFiles (v : AggFilesView) (entitySet : List Domain) : Option ℕ :=
  (TxNumsInFiles v entitySet).map fun t => (if 0 < t then t - 1 else t) / v.stepSize

/-! ## PruneSmallBatches (source lines 99, 846-923) -/

/-- `time.Second` in nanoseconds (Go `time.Duration` counts nanoseconds). -/
def secondNs : ℕ := 1000000000

/-- `time.Minute` in nanoseconds. -/
def minuteNs : ℕ := 60 * secondNs

/-- `time.Hour` in nanoseconds. -/
def hourNs : ℕ := 60 * minuteNs

/-- `MaxNonFuriousDirtySpacePerTx = 64 * datasize.MB` (source line 99);
`datasize.MB` is `1 << 20` bytes, so this is 64 MiB. -/
def MaxNonFuriousDirtySpacePerTx : ℕ := 64 * 2 ^ 20

/-- `furiousPrune := timeout > 5*time.Hour` (source line 851). -/
def furiousPrune (timeout : ℕ) : Bool := 5 * hourNs < timeout

/-- `aggressivePrune := !furiousPrune && timeout >= 1*time.Minute`
(source line 852). -/
def aggressivePrune (timeout : ℕ) : Bool :=
  !furiousPrune timeout && minuteNs ≤ timeout

/-- The initial `pruneLimit`: 1,000, raised to 1,000,000 for a furious run
(source lines 854-857). -/
def initialPruneLimit (timeout : ℕ) : ℕ :=
  if furiousPrune timeout then 1000000 else 1000

/-- `logPeriod := 30 * time.Second` (source line 862). -/
def logPeriodNs : ℕ := 30 * secondNs

/-- The per-iteration `pruneLimit` adaptation (source lines 897-905): only an
aggressive run adapts; the limit is multiplied by 10 (uint64 wrap-around)
when the iteration took under 2 seconds and divided by 10 when it exceeded
the log period. -/
def updatePruneLimit (timeout pruneLimit took : ℕ) : ℕ :=
  if aggressivePrune timeout then
    let pl := if took < 2 * secondNs then pruneLimit * 10 % U64MOD else pruneLimit
    if logPeriodNs < took then pl / 10 else pl
  else pruneLimit

/-- The observations one iteration of the `PruneSmallBatches` loop makes of
its environment: the DB's dirty-page space reported by `SpaceDirty`, whether
the inner `at.Prune` call failed, whether its statistic pruned anything,
how long the iteration took, and which `select` channels were ready. -/
structure PruneIterObs where
  spaceDirty : ℕ
  pruneErr : Bool
  prunedSomething : Bool
  took : ℕ
  timedOut : Bool
  ctxDone : Bool
  deriving DecidableEq, Repr

/-- Result of `PruneSmallBatches`: `ret haveMore errIsNil` models
`return haveMore, err` (with `errIsNil` true exactly for a nil error);
`outOfTrace` means the supplied observation trace ended before the loop
returned. -/
inductive PruneLoopResult where
  | ret (haveMore : Bool) (errIsNil : Bool)
  | outOfTrace
  deriving DecidableEq, Repr

/-- The loop of `AggregatorRoTx.PruneSmallBatches` (source lines 870-922),
run against a trace of per-iteration observations: a gentle (neither furious
nor aggressive) run returns `(false, nil)` when `SpaceDirty` exceeds
`MaxNonFuriousDirtySpacePerTx`; a `Prune` error returns it; an empty
statistic returns `(false, nil)`; otherwise the limit adapts and the `select`
decides between the local timeout (`return true, nil`), context cancellation
(`return false, ctx.Err()`) and the next iteration. -/
def pruneSmallBatchesLoop (timeout : ℕ) : ℕ → List PruneIterObs → PruneLoopResult
  | _, [] => .outOfTrace
  | pruneLimit, it :: rest =>
    if !furiousPrune timeout && !aggressivePrune timeout
        && MaxNonFuriousDirtySpacePerTx < it.spaceDirty then
      .ret false true
    else if it.pruneErr then
      .ret false false
    else if !it.prunedSomething then
      .ret false true
    else
      let pl := updatePruneLimit timeout pruneLimit it.took
      if it.timedOut then .ret true true
      else if it.ctxDone then .ret false false
      else pruneSmallBatchesLoop timeout pl rest

/-- `AggregatorRoTx.PruneSmallBatches(ctx, timeout, tx)` (source lines
846-923) against a trace of iteration observations. -/
def PruneSmallBatches (timeout : ℕ) (trace : List PruneIterObs) : PruneLoopResult :=
  pruneSmallBatchesLoop timeout (initialPruneLimit timeout) trace

/-! ## Background cancellation handling (source lines 642-669, 1519-1538) -/

/-- Error classes distinguished by the background jobs' handlers. -/
inductive GoErr where
  | canceled
  | stopped
  | other
  deriving DecidableEq, Repr

/-- `errors.Is(err, context.Canceled) || errors.Is(err, common.ErrStopped)`
as tested at source lines 653 and 1521 and 1533. -/
def isCancellation : GoErr → Bool
  | .canceled => true
  | .stopped => true
  | .other => false

/-- Observable outcome of a background goroutine: whether the completion
channel ends closed, whether a failure warning was logged, and whether the
goroutine panicked. -/
structure BgOutcome where
  finClosed : Bool
  warned : Bool
  panicked : Bool
  deriving DecidableEq, Repr

/-- The merge goroutine spawned at the end of `BuildFilesInBackground`
(source lines 1529-1538): `defer close(fin)`; a cancellation error from
`MergeLoop` returns silently, any other error logs a warning. -/
def buildFilesInBackgroundMergePhase (warnedBefore : Bool) : Option GoErr → BgOutcome
  | none => ⟨true, warnedBefore, false⟩
  | some e =>
    if isCancellation e then ⟨true, warnedBefore, false⟩
    else ⟨true, true, false⟩

/-- The error handling of `BuildFilesInBackground`'s build goroutine (source
lines 1519-1538), given the first error of the build loop (if any) and the
result of the trailing `MergeLoop`: a cancelled build closes `fin` and
returns silently; another build error logs a warning, breaks out of the loop,
and proceeds to the merge phase. -/
def buildFilesInBackgroundOutcome (buildErr mergeErr : Option GoErr) : BgOutcome :=
  match buildErr with
  | some e =>
    if isCancellation e then ⟨true, false, false⟩
    else buildFilesInBackgroundMergePhase true mergeErr
  | none => buildFilesInBackgroundMergePhase false mergeErr

/-- The outcome of the goroutine spawned by `BuildFiles2` (source lines
646-666): a build error panics whether or not it is a cancellation (the
cancellation branch panics directly, the general branch warns and then
panics); with no build error, a failing `MergeLoop` panics too. `BuildFiles2`
has no completion channel, so `finClosed` stays false. -/
def buildFiles2Outcome (buildErr mergeErr : Option GoErr) : BgOutcome :=
  match buildErr with
  | some e => if isCancellation e then ⟨false, false, true⟩ else ⟨false, true, true⟩
  | none =>
    match mergeErr with
    | some _ => ⟨false, false, true⟩
    | none => ⟨false, false, false⟩

/-! ## AggregatorRoTx.Prune (source lines 797-812, 1044-1091) -/

variable {δ σd σi : Type}

/-- The environment of `AggregatorRoTx.Prune` (source lines 1044-1091) over
an abstract DB-transaction state `δ` and abstract per-domain / per-index
prune statistics `σd`, `σi`. The per-entity prune routines and can-prune
probes live outside `src/` and are abstracted as function fields; a prune
routine consumes the DB state and either fails (`none`) or returns its
statistic and the new DB state. -/
structure PruneOps (δ σd σi : Type) where
  noPrune : Bool
  visibleFilesMinimaxTxNum : ℕ
  stepSize : ℕ
  domainCanPruneUntil : Domain → δ → ℕ → Bool
  iiCanPrune : List (δ → Bool)
  domainPrune : Domain → δ → ℕ → ℕ → ℕ → ℕ → Option (σd × δ)
  iiPrune : List (δ → ℕ → ℕ → ℕ → Option (σi × δ))

/-- `AggregatorRoTx.CanPrune(tx, untilTx)` (source lines 797-812): false
under `dbg.NoPrune()`, else true when some domain can prune until `untilTx`
or some inverted index can prune. -/
def CanPrune (ops : PruneOps δ σd σi) (db : δ) (untilTx : ℕ) : Bool :=
  if ops.noPrune then false
  else
    (allDomains.any fun d => ops.domainCanPruneUntil d db untilTx)
      || ops.iiCanPrune.any fun f => f db

/-- The domain loop of `Prune` (source lines 1070-1076), threading the DB
state and collecting per-domain statistics; `none` models an error return
(the Go code returns the partial statistic together with the error, which
the model drops). -/
def pruneDomains (ops : PruneOps δ σd σi) (step txFrom txTo limit : ℕ) :
    List Domain → δ → Option (List (Domain × σd) × δ)
  | [], db => some ([], db)
  | d :: ds, db =>
    match ops.domainPrune d db step txFrom txTo limit with
    | none => none
    | some (stat, db2) =>
      match pruneDomains ops step txFrom txTo limit ds db2 with
      | none => none
      | some (stats, db3) => some ((d, stat) :: stats, db3)

/-- The inverted-index loop of `Prune` (source lines 1078-1088). -/
def pruneIIs (txFrom txTo limit : ℕ) :
    List (δ → ℕ → ℕ → ℕ → Option (σi × δ)) → δ → Option (List σi × δ)
  | [], db => some ([], db)
  | f :: fs, db =>
    match f db txFrom txTo limit with
    | none => none
    | some (stat, db2) =>
      match pruneIIs txFrom txTo limit fs db2 with
      | none => none
      | some (stats, db3) => some (stat :: stats, db3)

/-- `AggregatorRoTx.Prune(ctx, tx, limit, logEvery)` (source lines
1044-1091): a zero row budget becomes `math.MaxUint64`; `txFrom` is always 0
and `txTo` is the visible-files minimax txNum; with an empty range or nothing
prunable it returns a nil statistic and nil error leaving the DB untouched;
otherwise it prunes every domain, then every inverted index. The result
`some (none, db)` models `return nil, nil`; `some (some stat, db2)` a
successful prune; `none` an error return. -/
def Prune (ops : PruneOps δ σd σi) (db : δ) (limit : ℕ) :
    Option (Option (List (Domain × σd) × List σi) × δ) :=
  let limit2 := if limit = 0 then MaxUint64 else limit
  let txFrom := 0
  let txTo := ops.visibleFilesMinimaxTxNum
  let step := if 0 < txTo then (txTo - 1) / ops.stepSize else 0
  if txFrom = txTo ∨ CanPrune ops db txTo = false then some (none, db)
  else
    match pruneDomains ops step txFrom txTo limit2 allDomains db with
    | none => none
    | some (dstats, db2) =>
      match pruneIIs txFrom txTo limit2 ops.iiPrune db2 with
      | none => none
      | some (istats, db3) => some (some (dstats, istats), db3)

/-! ## Theorems for step arithmetic and close idempotence -/

/-- Claim C8: for every step S and step size, the txNum range attributed to
step S is `[S*stepSize, (S+1)*stepSize)`: `FirstTxNumOfStep S = S*stepSize`,
the last txNum of step S is `(S+1)*stepSize - 1` (one before the first txNum
of step S+1, when `stepSize > 0`), and a `(fromStep, toStep)` file covers the
half-open interval `[fromStep*stepSize, toStep*stepSize)`. -/
theorem step_txnum_range (stepSize S fromStep toStep : ℕ) (h : 0 < stepSize) :
    FirstTxNumOfStep stepSize S = S * stepSize
    ∧ lastTxNumOfStep S stepSize = (S + 1) * stepSize - 1
    ∧ lastTxNumOfStep S stepSize + 1 = FirstTxNumOfStep stepSize (S + 1)
    ∧ (∀ t : ℕ,
        ((fileTxRange fromStep toStep stepSize).1 ≤ t
          ∧ t < (fileTxRange fromStep toStep stepSize).2)
        ↔ (fromStep * stepSize ≤ t ∧ t < toStep * stepSize)) := by
  refine ⟨rfl, rfl, ?_, fun t => Iff.rfl⟩
  have hs : 1 ≤ (S + 1) * stepSize := Nat.one_le_iff_ne_zero.mpr (by positivity)
  simp only [lastTxNumOfStep, FirstTxNumOfStep, firstTxNumOfStep]
  omega

/-- Witness for `step_txnum_range` at stepSize 16, S = 3, file (2, 5). -/
theorem step_txnum_range_witness :
    FirstTxNumOfStep 16 3 = 3 * 16
    ∧ lastTxNumOfStep 3 16 = (3 + 1) * 16 - 1
    ∧ lastTxNumOfStep 3 16 + 1 = FirstTxNumOfStep 16 (3 + 1)
    ∧ (∀ t : ℕ,
        ((fileTxRange 2 5 16).1 ≤ t ∧ t < (fileTxRange 2 5 16).2)
        ↔ (2 * 16 ≤ t ∧ t < 5 * 16)) :=
  step_txnum_range 16 3 2 5 (by decide)

/-- Claim C7: `Close` is idempotent for both handle types: a second (or later)
`Aggregator.Close` is a no-op leaving all state unchanged, and
`AggregatorRoTx.Close` after a previous close, or on a nil receiver, is a
no-op. -/
theorem close_idempotent :
    (∀ s : AggregatorCloseState, aggregatorClose (aggregatorClose s) = aggregatorClose s)
    ∧ (∀ o : Option AggregatorRoTxCloseState,
        aggregatorRoTxClose (aggregatorRoTxClose o) = aggregatorRoTxClose o)
    ∧ aggregatorRoTxClose none = none := by
  refine ⟨fun s => ?_, fun o => ?_, rfl⟩
  · by_cases h : s.ctxCancelValid = false <;> simp [aggregatorClose, h]
  · match o with
    | none => rfl
    | some s => by_cases h : s.aValid = false <;> simp [aggregatorRoTxClose, h]

/-- Claim C2 counterexample: with no Commitment file on disk at all, the
integrity check still accepts an Accounts-domain file `(0, 2)` (its step span
exceeds 1), so acceptance of an Accounts/Storage/Code file does not require a
matching Commitment file in general. -/
theorem integrity_check_counterexample :
    domainIntegrityCheck .Accounts ⟨fun _ _ => false⟩ 0 2 = true
    ∧ commitmentFileMustExist ⟨fun _ _ => false⟩ 0 2 = false := by
  exact ⟨rfl, rfl⟩

/-- Claim C2 (amended): the integrity check accepts a file of the Accounts,
Storage or Code domain whose step span `toStep - fromStep` (uint64
subtraction) is at most 1 only if a Commitment file with the same
`(fromStep, toStep)` exists on disk; files of those domains with span
exceeding 1, and files of all other domains, are always accepted. -/
theorem integrity_check_requires_commitment (dirs : SnapDirs) (name : Domain)
    (fromStep toStep : ℕ) :
    domainIntegrityCheck name dirs fromStep toStep = true
    ↔ ((name = .Accounts ∨ name = .Storage ∨ name = .Code) →
        wsub toStep fromStep ≤ 1 →
        commitmentFileMustExist dirs fromStep toStep = true) := by
  cases name <;>
    simp only [domainIntegrityCheck, commitmentFileMustExist] <;>
    by_cases h : 1 < wsub toStep fromStep <;>
    simp [h] <;>
    omega

/-- Witness for `integrity_check_requires_commitment`: a Storage file `(4, 5)`
is accepted exactly when the Commitment file `(4, 5)` exists. -/
theorem integrity_check_requires_commitment_witness :
    domainIntegrityCheck .Storage ⟨fun f t => f = 4 && t = 5⟩ 4 5 = true
    ↔ ((Domain.Storage = .Accounts ∨ Domain.Storage = .Storage ∨ Domain.Storage = .Code) →
        wsub 5 4 ≤ 1 →
        commitmentFileMustExist ⟨fun f t => f = 4 && t = 5⟩ 4 5 = true) :=
  integrity_check_requires_commitment ⟨fun f t => f = 4 && t = 5⟩ .Storage 4 5

/-- Claim C3: `BuildFilesInBackground(txNum)` returns an already-closed
completion channel without starting any build work exactly when `produce` is
false, or `(txNum+1) ≤ visibleFilesMinimaxTxNum + stepSize`, or the
compare-and-swap of the `buildingFiles` flag from false to true fails (the
flag was already true). Stated for uint64-bounded inputs, where Go's
wrap-around arithmetic agrees with plain arithmetic. -/
theorem build_trigger_early_return (a : BuildTriggerState) (txNum : ℕ)
    (h1 : txNum + 1 < U64MOD)
    (h2 : a.visibleFilesMinimaxTxNum + a.aggregationStep < U64MOD) :
    ((BuildFilesInBackground a txNum).finClosedImmediately = true
      ∧ (BuildFilesInBackground a txNum).startedBuild = false)
    ↔ (a.produce = false
        ∨ txNum + 1 ≤ a.visibleFilesMinimaxTxNum + a.aggregationStep
        ∨ a.buildingFiles = true) := by
  have e1 : (txNum + 1) % U64MOD = txNum + 1 := Nat.mod_eq_of_lt h1
  have e2 : (a.visibleFilesMinimaxTxNum + a.aggregationStep) % U64MOD
      = a.visibleFilesMinimaxTxNum + a.aggregationStep := Nat.mod_eq_of_lt h2
  unfold BuildFilesInBackground
  rw [e1, e2]
  by_cases hp : a.produce = false <;>
    by_cases hc : txNum + 1 ≤ a.visibleFilesMinimaxTxNum + a.aggregationStep <;>
      by_cases hb : a.buildingFiles = true <;>
        simp [hp, hc, hb]

/-- Witness for `build_trigger_early_return`: with produce on, minimax 0, step
size 10 and the flag clear, txNum 100 starts a build (no early return). -/
theorem build_trigger_early_return_witness :
    ((BuildFilesInBackground (BuildTriggerState.mk true 0 false 10) 100).finClosedImmediately = true
      ∧ (BuildFilesInBackground (BuildTriggerState.mk true 0 false 10) 100).startedBuild = false)
    ↔ (true = false ∨ (100 : ℕ) + 1 ≤ 0 + 10 ∨ false = true) :=
  build_trigger_early_return (BuildTriggerState.mk true 0 false 10) 100
    (by norm_num [U64MOD]) (by norm_num [U64MOD])

/-- Both bounds of a `MergeRange.Equal` pair agree. -/
theorem MergeRange.equal_iff (a b : MergeRange) :
    a.Equal b = true ↔ (a.fromTx = b.fromTx ∧ a.toTx = b.toTx) := by
  simp [MergeRange.Equal]

/-- Claim C1: on an `AggregatorRoTx` with `commitmentValuesTransform`
enabled, when the latest merged ranges of the Accounts, Storage and
Commitment domains are not all equal, the effective end bound used for all
merge-range proposals of `findMergeRange(maxEndTxNum, maxSpan)` is lowered to
`min(maxEndTxNum, max(accTo, stoTo, comTo))`. -/
theorem find_merge_range_lowers_bound (v : AggMergeView) (maxEndTxNum maxSpan : ℕ)
    (hcvt : v.commitmentValuesTransform = true)
    (hne : ¬((v.latestMergedRange .Accounts).Equal (v.latestMergedRange .Storage) = true
        ∧ (v.latestMergedRange .Storage).Equal (v.latestMergedRange .Commitment) = true
        ∧ (v.latestMergedRange .Accounts).Equal (v.latestMergedRange .Commitment) = true)) :
    findMergeRangeMaxEnd v maxEndTxNum
      = min maxEndTxNum
          (max (v.latestMergedRange .Accounts).toTx
            (max (v.latestMergedRange .Storage).toTx (v.latestMergedRange .Commitment).toTx))
    ∧ findMergeRange v maxEndTxNum maxSpan
      = findMergeRangeFrom v
          (min maxEndTxNum
            (max (v.latestMergedRange .Accounts).toTx
              (max (v.latestMergedRange .Storage).toTx (v.latestMergedRange .Commitment).toTx)))
          maxSpan := by
  have hcond : (v.latestMergedRange .Commitment).Equal (v.latestMergedRange .Accounts) = false
      ∨ (v.latestMergedRange .Commitment).Equal (v.latestMergedRange .Storage) = false := by
    by_contra hcon
    push_neg at hcon
    obtain ⟨h1, h2⟩ := hcon
    rw [Bool.ne_false_iff] at h1 h2
    obtain ⟨h11, h12⟩ := (MergeRange.equal_iff _ _).mp h1
    obtain ⟨h21, h22⟩ := (MergeRange.equal_iff _ _).mp h2
    refine hne ⟨(MergeRange.equal_iff _ _).mpr ⟨?_, ?_⟩,
      (MergeRange.equal_iff _ _).mpr ⟨?_, ?_⟩,
      (MergeRange.equal_iff _ _).mpr ⟨?_, ?_⟩⟩ <;> omega
  have hmain : findMergeRangeMaxEnd v maxEndTxNum
      = min maxEndTxNum
          (max (v.latestMergedRange .Accounts).toTx
            (max (v.latestMergedRange .Storage).toTx (v.latestMergedRange .Commitment).toTx)) := by
    rcases hcond with h | h <;> simp [findMergeRangeMaxEnd, hcvt, h]
  refine ⟨hmain, ?_⟩
  rw [findMergeRange, hmain]

/-- Concrete merge view for the `find_merge_range_lowers_bound` witness:
Accounts and Storage last merged `[0, 32)` while Commitment last merged
`[0, 16)`. -/
def mergeViewW : AggMergeView :=
  { commitmentValuesTransform := true
    latestMergedRange := fun d =>
      match d with
      | .Commitment => ⟨true, 0, 16⟩
      | _ => ⟨true, 0, 32⟩
    domainFindMergeRange := fun _ _ _ => MergeRange.empty
    lookupDirtyFileByItsRange := fun _ _ _ => false
    iiFindMergeRange := [] }

/-- Witness for `find_merge_range_lowers_bound` on `mergeViewW` with
`maxEndTxNum = 100`, `maxSpan = 64`. -/
theorem find_merge_range_lowers_bound_witness :
    findMergeRangeMaxEnd mergeViewW 100 = min 100 (max 32 (max 32 16))
    ∧ findMergeRange mergeViewW 100 64
      = findMergeRangeFrom mergeViewW (min 100 (max 32 (max 32 16))) 64 :=
  find_merge_range_lowers_bound mergeViewW 100 64 rfl (by simp [mergeViewW, MergeRange.Equal])

/-- Claim C4: inside a background build started by `BuildFilesInBackground`,
`lastInDB` is the maximum over the Accounts, Code, Storage and Commitment
domains of the greatest fully-written step present in the DB for that domain,
and steps are built only while `step < lastInDB`. -/
theorem build_loop_bound (db : AggDbView) (startStep : ℕ) :
    (∀ d ∈ [Domain.Accounts, Domain.Code, Domain.Storage, Domain.Commitment],
        db.maxStepInDB d ≤ buildLoopLastInDB db)
    ∧ (∃ d ∈ [Domain.Accounts, Domain.Code, Domain.Storage, Domain.Commitment],
        buildLoopLastInDB db = db.maxStepInDB d)
    ∧ (∀ s ∈ builtSteps startStep (buildLoopLastInDB db),
        startStep ≤ s ∧ s < buildLoopLastInDB db) := by
  refine ⟨?_, ?_, ?_⟩
  · intro d hd
    fin_cases hd <;>
      simp only [buildLoopLastInDB, lastIdInDB, lastIdInDBNoHistory] <;>
      omega
  · simp only [buildLoopLastInDB, lastIdInDB, lastIdInDBNoHistory]
    rcases max_choice (db.maxStepInDB .Accounts)
        (max (db.maxStepInDB .Code)
          (max (db.maxStepInDB .Storage) (db.maxStepInDB .Commitment))) with h | h
    · exact ⟨.Accounts, by simp, h⟩
    · rw [h]
      rcases max_choice (db.maxStepInDB .Code)
          (max (db.maxStepInDB .Storage) (db.maxStepInDB .Commitment)) with h2 | h2
      · exact ⟨.Code, by simp, h2⟩
      · rw [h2]
        rcases max_choice (db.maxStepInDB .Storage) (db.maxStepInDB .Commitment) with h3 | h3
        · exact ⟨.Storage, by simp, h3⟩
        · exact ⟨.Commitment, by simp, h3⟩
  · intro s hs
    rw [builtSteps, List.mem_range'_1] at hs
    omega

/-- Concrete DB view for the `build_loop_bound` witness: greatest steps 5, 3,
7, 6 for Accounts, Code, Storage, Commitment. -/
def dbViewW : AggDbView :=
  ⟨fun d =>
    match d with
    | .Accounts => 5
    | .Code => 3
    | .Storage => 7
    | .Commitment => 6
    | .Receipt => 0⟩

/-- Witness for `build_loop_bound` on `dbViewW` starting at step 2: the
Code bound is respected and step 4 of the built list lies below `lastInDB`. -/
theorem build_loop_bound_witness :
    dbViewW.maxStepInDB .Code ≤ buildLoopLastInDB dbViewW
    ∧ (2 ≤ 4 ∧ 4 < buildLoopLastInDB dbViewW) := by
  obtain ⟨h1, -, h3⟩ := build_loop_bound dbViewW 2
  have hL : buildLoopLastInDB dbViewW = 7 := rfl
  have mem4 : (4 : ℕ) ∈ builtSteps 2 (buildLoopLastInDB dbViewW) := by
    rw [hL]; decide
  exact ⟨h1 .Code (by simp), h3 4 mem4⟩

/-- A left fold of `min` never exceeds its initial accumulator. -/
theorem foldl_min_le_init (f : Domain → ℕ) (l : List Domain) (a : ℕ) :
    l.foldl (fun m d => min m (f d)) a ≤ a := by
  induction l generalizing a with
  | nil => simp
  | cons x xs ih => exact le_trans (ih (min a (f x))) (min_le_left _ _)

/-- A left fold of `min` never exceeds any listed element's value. -/
theorem foldl_min_le_mem (f : Domain → ℕ) :
    ∀ (l : List Domain) (a : ℕ) (x : Domain), x ∈ l →
      l.foldl (fun m d => min m (f d)) a ≤ f x := by
  intro l
  induction l with
  | nil => intro a x hx; simp at hx
  | cons y ys ih =>
    intro a x hx
    rcases List.mem_cons.mp hx with rfl | h
    · exact le_trans (foldl_min_le_init f ys _) (min_le_right _ _)
    · exact ih _ _ h

/-- A left fold of `min` is attained: it equals the initial accumulator or
some listed element's value. -/
theorem foldl_min_attained (f : Domain → ℕ) :
    ∀ (l : List Domain) (a : ℕ),
      l.foldl (fun m d => min m (f d)) a = a
      ∨ ∃ x ∈ l, l.foldl (fun m d => min m (f d)) a = f x := by
  intro l
  induction l with
  | nil => intro a; left; rfl
  | cons y ys ih =>
    intro a
    rcases ih (min a (f y)) with h | ⟨x, hx, hfx⟩
    · rcases min_choice a (f y) with hm | hm
      · left
        simpa [hm] using h
      · right
        exact ⟨y, List.mem_cons_self y ys, by simpa [hm] using h⟩
    · right
      exact ⟨x, List.mem_cons_of_mem _ hx, by simpa using hfx⟩

/-- Claim C10: `TxNumsInFiles` panics (modelled as `none`) on an empty entity
set; on a non-empty set it returns the minimum over the listed domains of the
domain's visible-files end txNum; consequently `StepsInFiles` returns
`(TxNumsInFiles(entitySet) - 1) / stepSize` when that minimum is positive and
0 when it is 0. -/
theorem txnums_steps_in_files (v : AggFilesView) (es : List Domain)
    (h : es ≠ []) (hstep : 0 < v.stepSize) :
    TxNumsInFiles v [] = none
    ∧ ∃ t, TxNumsInFiles v es = some t
        ∧ (∀ d ∈ es, t ≤ v.endTxNum d)
        ∧ (∃ d ∈ es, t = v.endTxNum d)
        ∧ StepsInFiles v es = some (if 0 < t then (t - 1) / v.stepSize else 0) := by
  obtain ⟨e, es2, rfl⟩ := List.exists_cons_of_ne_nil h
  refine ⟨rfl, es2.foldl (fun m d => min m (v.endTxNum d)) (v.endTxNum e), rfl, ?_, ?_, ?_⟩
  · intro d hd
    rcases List.mem_cons.mp hd with rfl | hd2
    · exact foldl_min_le_init _ _ _
    · exact foldl_min_le_mem _ _ _ _ hd2
  · rcases foldl_min_attained (fun d => v.endTxNum d) es2 (v.endTxNum e) with ha | ⟨x, hx, hfx⟩
    · exact ⟨e, List.mem_cons_self e es2, ha⟩
    · exact ⟨x, List.mem_cons_of_mem _ hx, hfx⟩
  · by_cases ht : 0 < es2.foldl (fun m d => min m (v.endTxNum d)) (v.endTxNum e)
    · simp [StepsInFiles, TxNumsInFiles, ht]
    · have ht0 : es2.foldl (fun m d => min m (v.endTxNum d)) (v.endTxNum e) = 0 := by omega
      simp [StepsInFiles, TxNumsInFiles, ht0]

/-- Concrete files view for the `txnums_steps_in_files` witness: end txNums
96, 64, 128, 128 for Accounts, Storage, Code, Commitment; step size 16. -/
def filesViewW : AggFilesView :=
  ⟨fun d =>
    match d with
    | .Accounts => 96
    | .Storage => 64
    | _ => 128,
   16⟩

/-- Witness for `txnums_steps_in_files` on `filesViewW` over the state
domains: the minimum end txNum is Storage's 64, and the aggregated step is
(64-1)/16 = 3. -/
theorem txnums_steps_in_files_witness :
    TxNumsInFiles filesViewW [] = none
    ∧ TxNumsInFiles filesViewW StateDomains = some 64
    ∧ 64 ≤ filesViewW.endTxNum .Accounts
    ∧ StepsInFiles filesViewW StateDomains = some ((64 - 1) / filesViewW.stepSize) := by
  have hval : TxNumsInFiles filesViewW StateDomains = some 64 := rfl
  obtain ⟨h0, t, ht, hle, -, hsteps⟩ :=
    txnums_steps_in_files filesViewW StateDomains (by simp [StateDomains])
      (by norm_num [filesViewW])
  have htv : t = 64 := Option.some.inj (ht.symm.trans hval)
  subst htv
  refine ⟨h0, hval, hle .Accounts (by simp [StateDomains]), ?_⟩
  simpa using hsteps

/-- Claim C5: `PruneSmallBatches` classifies the run as furious exactly when
the timeout exceeds 5 hours (batch limit 1,000,000 and no adaptation), as
aggressive exactly when the timeout is at least 1 minute and not furious
(batch limit starting at 1,000, multiplied by 10 when an iteration takes
under 2 seconds, divided by 10 when it exceeds the 30-second log period), and
otherwise as gentle, in which case it stops without error as soon as the DB's
dirty-page space exceeds `MaxNonFuriousDirtySpacePerTx` = 64 MiB. -/
theorem prune_small_batches_modes (timeout pl took : ℕ) (it : PruneIterObs)
    (rest : List PruneIterObs) :
    (furiousPrune timeout = true ↔ 5 * hourNs < timeout)
    ∧ (aggressivePrune timeout = true ↔ (minuteNs ≤ timeout ∧ furiousPrune timeout = false))
    ∧ (furiousPrune timeout = true →
        initialPruneLimit timeout = 1000000 ∧ updatePruneLimit timeout pl took = pl)
    ∧ (aggressivePrune timeout = true → initialPruneLimit timeout = 1000)
    ∧ (aggressivePrune timeout = true → took < 2 * secondNs → pl * 10 < U64MOD →
        updatePruneLimit timeout pl took = pl * 10)
    ∧ (aggressivePrune timeout = true → logPeriodNs < took →
        updatePruneLimit timeout pl took = pl / 10)
    ∧ (furiousPrune timeout = false → aggressivePrune timeout = false →
        MaxNonFuriousDirtySpacePerTx < it.spaceDirty →
        PruneSmallBatches timeout (it :: rest) = .ret false true
        ∧ pruneSmallBatchesLoop timeout pl (it :: rest) = .ret false true)
    ∧ MaxNonFuriousDirtySpacePerTx = 67108864 := by
  refine ⟨?_, ?_, ?_, ?_, ?_, ?_, ?_, by norm_num [MaxNonFuriousDirtySpacePerTx]⟩
  · simp [furiousPrune]
  · simp only [aggressivePrune, furiousPrune, Bool.and_eq_true, Bool.not_eq_true',
      decide_eq_true_eq, decide_eq_false_iff_not]
    tauto
  · intro hf
    have ha : aggressivePrune timeout = false := by
      simp [aggressivePrune, hf]
    exact ⟨by simp [initialPruneLimit, hf], by simp [updatePruneLimit, ha]⟩
  · intro ha
    have hf : furiousPrune timeout = false := by
      rcases Bool.and_eq_true _ _ |>.mp ha with ⟨h1, -⟩
      simpa using h1
    simp [initialPruneLimit, hf]
  · intro ha h2 hb
    have h30 : ¬(logPeriodNs < took) := by
      simp only [logPeriodNs, secondNs] at *
      omega
    simp [updatePruneLimit, ha, h2, h30, Nat.mod_eq_of_lt hb]
  · intro ha h30
    have h2 : ¬(took < 2 * secondNs) := by
      simp only [logPeriodNs, secondNs] at *
      omega
    simp [updatePruneLimit, ha, h2, h30]
  · intro hf ha hs
    constructor <;>
      simp [PruneSmallBatches, pruneSmallBatchesLoop, hf, ha, hs]

/-- Witness for `prune_small_batches_modes` at a gentle 30-second timeout:
the classification iff holds, and a first iteration seeing 64 MiB + 1 byte of
dirty pages stops the loop without error. -/
theorem prune_small_batches_modes_witness :
    (furiousPrune (30 * secondNs) = true ↔ 5 * hourNs < 30 * secondNs)
    ∧ PruneSmallBatches (30 * secondNs)
        (PruneIterObs.mk 67108865 false true 0 false false :: []) = .ret false true
    ∧ MaxNonFuriousDirtySpacePerTx = 67108864 := by
  obtain ⟨h1, -, -, -, -, -, h7, h8⟩ :=
    prune_small_batches_modes (30 * secondNs) 1000 0
      (PruneIterObs.mk 67108865 false true 0 false false) []
  refine ⟨h1, ?_, h8⟩
  refine (h7 ?_ ?_ ?_).1
  · norm_num [furiousPrune, hourNs, minuteNs, secondNs]
  · norm_num [aggressivePrune, furiousPrune, hourNs, minuteNs, secondNs]
  · norm_num [MaxNonFuriousDirtySpacePerTx]

/-- Claim C6 counterexample: a background build started by `BuildFiles2`
whose build loop stops with `context.Canceled` panics instead of returning
silently. -/
theorem buildfiles2_panics_on_cancel :
    (buildFiles2Outcome (some .canceled) none).panicked = true
    ∧ (buildFiles2Outcome (some .canceled) none).finClosed = false := ⟨rfl, rfl⟩

/-- Claim C6 (amended): a background job started by `BuildFilesInBackground`
that terminates because its context was cancelled (`context.Canceled` or the
stop error) propagates the cancellation silently — the completion channel is
closed and neither a failure warning nor a panic occurs, whether the
cancellation hits the build loop or the trailing merge loop; the goroutines
of `BuildFiles2`, however, panic on such an error. -/
theorem cancellation_silent (e : GoErr) (mergeErr : Option GoErr)
    (h : isCancellation e = true) :
    buildFilesInBackgroundOutcome (some e) mergeErr = ⟨true, false, false⟩
    ∧ buildFilesInBackgroundOutcome none (some e) = ⟨true, false, false⟩
    ∧ (buildFiles2Outcome (some e) mergeErr).panicked = true
    ∧ (buildFiles2Outcome none (some e)).panicked = true := by
  cases e <;>
    simp_all [buildFilesInBackgroundOutcome, buildFilesInBackgroundMergePhase,
      buildFiles2Outcome, isCancellation]

/-- Witness for `cancellation_silent` at `context.Canceled` with no merge
error. -/
theorem cancellation_silent_witness :
    buildFilesInBackgroundOutcome (some .canceled) none = ⟨true, false, false⟩
    ∧ buildFilesInBackgroundOutcome none (some .canceled) = ⟨true, false, false⟩
    ∧ (buildFiles2Outcome (some .canceled) none).panicked = true
    ∧ (buildFiles2Outcome none (some .canceled)).panicked = true :=
  cancellation_silent .canceled none rfl

/-- Claim C9: `Prune` with limit 0 behaves exactly like an unlimited row
budget (limit 2^64 - 1); and when the visible-files minimax txNum is 0, or no
domain or index can prune anything, `Prune` returns a nil statistic and a nil
error without modifying the DB. -/
theorem prune_zero_limit_and_noop (ops : PruneOps δ σd σi) (db : δ) (limit : ℕ)
    (h : ops.visibleFilesMinimaxTxNum = 0
      ∨ CanPrune ops db ops.visibleFilesMinimaxTxNum = false) :
    Prune ops db 0 = Prune ops db MaxUint64
    ∧ Prune ops db limit = some (none, db) := by
  constructor
  · norm_num [Prune, MaxUint64]
  · rcases h with h | h <;> simp [Prune, h]

/-- Concrete prune environment for the `prune_zero_limit_and_noop` witness:
minimax txNum 0 over a `ℕ`-valued DB state. -/
def pruneOpsW : PruneOps ℕ ℕ ℕ :=
  { noPrune := false
    visibleFilesMinimaxTxNum := 0
    stepSize := 1
    domainCanPruneUntil := fun _ _ _ => true
    iiCanPrune := []
    domainPrune := fun _ db _ _ _ _ => some (1, db)
    iiPrune := [] }

/-- Witness for `prune_zero_limit_and_noop` on `pruneOpsW` with DB state 7
and limit 5. -/
theorem prune_zero_limit_and_noop_witness :
    Prune pruneOpsW 7 0 = Prune pruneOpsW 7 MaxUint64
    ∧ Prune pruneOpsW 7 5 = some (none, 7) :=
  prune_zero_limit_and_noop pruneOpsW 7 5 (Or.inl rfl)

end Erigon
